import Mathlib

/-!
Verification of the learning/geometry core of the `marl-patrolling-agents`
repository: a shallow embedding of `utils/utils.py` and `sim/agents.py`
(exceptions as `Except`, Python ints as `Int`/`Nat`, torch tensors of reals
as lists of `ℚ`, the real-valued epsilon schedule over `ℝ`), together with
theorems settling the spec's claims about them.
-/

namespace Patrol

/-- Embedding of `utils.possible_directions(limit_board, position)`:
the list of king-move neighbours of `position` that stay on the board,
built in exactly the source's append order. -/
def possible_directions (limit_board position : Int × Int) : List (Int × Int) :=
  (if position.1 > 0 then
      [(position.1 - 1, position.2)]
        ++ (if position.2 > 0 then [(position.1 - 1, position.2 - 1)] else [])
        ++ (if position.2 < limit_board.2 - 1 then [(position.1 - 1, position.2 + 1)] else [])
    else []) ++
  (if position.2 > 0 then [(position.1, position.2 - 1)] else []) ++
  (if position.1 < limit_board.1 - 1 then
      [(position.1 + 1, position.2)]
        ++ (if position.2 > 0 then [(position.1 + 1, position.2 - 1)] else [])
        ++ (if position.2 < limit_board.2 - 1 then [(position.1 + 1, position.2 + 1)] else [])
    else []) ++
  (if position.2 < limit_board.2 - 1 then [(position.1, position.2 + 1)] else [])

/-- The one-step move of `get_distance_between` toward `position_2`
(the `x_new, y_new` computation of `utils/utils.py`, lines 52-73):
step each coordinate one unit toward the target, defaulting to the
current coordinate when they already agree. -/
def distStep (position_1 position_2 : Int × Int) : Int × Int :=
  if position_1.1 < position_2.1 then
    (if position_1.2 < position_2.2 then (position_1.1 + 1, position_1.2 + 1)
     else if position_1.2 = position_2.2 then (position_1.1 + 1, position_1.2)
     else (position_1.1 + 1, position_1.2 - 1))
  else if position_1.1 = position_2.1 then
    (if position_1.2 < position_2.2 then (position_1.1, position_1.2 + 1)
     else if position_1.2 > position_2.2 then (position_1.1, position_1.2 - 1)
     else (position_1.1, position_1.2))
  else
    (if position_1.2 < position_2.2 then (position_1.1 - 1, position_1.2 + 1)
     else if position_1.2 = position_2.2 then (position_1.1 - 1, position_1.2)
     else (position_1.1 - 1, position_1.2 - 1))

/-- Embedding of the recursive `utils.get_distance_between`: fuel-indexed so
that the (possibly non-terminating) Python recursion becomes a total
function; `none` means the recursion has not reached its base case within
`fuel` nested calls. The body mirrors the source: return 1 if `position_1`
is a possible direction from `position_2`, otherwise step toward
`position_2` and add 1. -/
def get_distance_between : Nat → (Int × Int) → (Int × Int) → (Int × Int) → Option Nat
  | 0, _, _, _ => none
  | fuel + 1, limit_board, position_1, position_2 =>
    if position_1 ∈ possible_directions limit_board position_2 then some 1
    else
      match get_distance_between fuel limit_board (distStep position_1 position_2) position_2 with
      | some d => some (1 + d)
      | none => none

/-- The spec's closed-form distance `max(|ax-bx|, |ay-by|)` (Chebyshev). -/
def chebyshev (a b : Int × Int) : Nat :=
  max (a.1 - b.1).natAbs (a.2 - b.2).natAbs

/-- A position lies within the board bounds `[0, W) × [0, H)`. -/
def inBounds (limit_board position : Int × Int) : Prop :=
  0 ≤ position.1 ∧ position.1 < limit_board.1 ∧ 0 ≤ position.2 ∧ position.2 < limit_board.2

instance (limit_board position : Int × Int) : Decidable (inBounds limit_board position) := by
  unfold inBounds; infer_instance

/-- The board-left neighbour is listed when it exists. -/
lemma mem_pd_left (lx ly x y : Int) (h : x > 0) :
    (x - 1, y) ∈ possible_directions (lx, ly) (x, y) := by
  simp [possible_directions, h]

/-- The lower-left neighbour is listed when it exists. -/
lemma mem_pd_left_down (lx ly x y : Int) (hx : x > 0) (hy : y > 0) :
    (x - 1, y - 1) ∈ possible_directions (lx, ly) (x, y) := by
  simp [possible_directions, hx, hy]

/-- The upper-left neighbour is listed when it exists. -/
lemma mem_pd_left_up (lx ly x y : Int) (hx : x > 0) (hy : y < ly - 1) :
    (x - 1, y + 1) ∈ possible_directions (lx, ly) (x, y) := by
  simp [possible_directions, hx, hy]

/-- The lower neighbour is listed when it exists. -/
lemma mem_pd_down (lx ly x y : Int) (hy : y > 0) :
    (x, y - 1) ∈ possible_directions (lx, ly) (x, y) := by
  simp [possible_directions, hy]

/-- The board-right neighbour is listed when it exists. -/
lemma mem_pd_right (lx ly x y : Int) (h : x < lx - 1) :
    (x + 1, y) ∈ possible_directions (lx, ly) (x, y) := by
  simp [possible_directions, h]

/-- The lower-right neighbour is listed when it exists. -/
lemma mem_pd_right_down (lx ly x y : Int) (hx : x < lx - 1) (hy : y > 0) :
    (x + 1, y - 1) ∈ possible_directions (lx, ly) (x, y) := by
  simp [possible_directions, hx, hy]

/-- The upper-right neighbour is listed when it exists. -/
lemma mem_pd_right_up (lx ly x y : Int) (hx : x < lx - 1) (hy : y < ly - 1) :
    (x + 1, y + 1) ∈ possible_directions (lx, ly) (x, y) := by
  simp [possible_directions, hx, hy]

/-- The upper neighbour is listed when it exists. -/
lemma mem_pd_up (lx ly x y : Int) (hy : y < ly - 1) :
    (x, y + 1) ∈ possible_directions (lx, ly) (x, y) := by
  simp [possible_directions, hy]

/-- Every listed possible direction is at Chebyshev distance exactly 1. -/
lemma chebyshev_eq_one_of_mem (limit_board p q : Int × Int)
    (h : p ∈ possible_directions limit_board q) : chebyshev p q = 1 := by
  obtain ⟨lx, ly⟩ := limit_board
  obtain ⟨a, b⟩ := p
  obtain ⟨x, y⟩ := q
  simp only [possible_directions, List.mem_append] at h
  split_ifs at h <;>
    simp only [List.mem_append, List.mem_cons, List.not_mem_nil, or_false, false_or,
      Prod.mk.injEq] at h <;>
    simp only [chebyshev] <;>
    omega

/-- Conversely, an in-bounds cell at Chebyshev distance 1 from `(x, y)`
is listed among its possible directions. -/
lemma mem_of_chebyshev_eq_one (lx ly a b x y : Int)
    (hp : 0 ≤ a ∧ a < lx ∧ 0 ≤ b ∧ b < ly)
    (h : chebyshev (a, b) (x, y) = 1) :
    (a, b) ∈ possible_directions (lx, ly) (x, y) := by
  simp only [chebyshev] at h
  have hcase : (a = x - 1 ∨ a = x ∨ a = x + 1) ∧ (b = y - 1 ∨ b = y ∨ b = y + 1) ∧
      ¬(a = x ∧ b = y) := by omega
  obtain ⟨ha | ha | ha, hb | hb | hb, hne⟩ := hcase
  · rw [ha, hb]; exact mem_pd_left_down lx ly x y (by omega) (by omega)
  · rw [ha, hb]; exact mem_pd_left lx ly x y (by omega)
  · rw [ha, hb]; exact mem_pd_left_up lx ly x y (by omega) (by omega)
  · rw [ha, hb]; exact mem_pd_down lx ly x y (by omega)
  · exact absurd ⟨ha, hb⟩ hne
  · rw [ha, hb]; exact mem_pd_up lx ly x y (by omega)
  · rw [ha, hb]; exact mem_pd_right_down lx ly x y (by omega) (by omega)
  · rw [ha, hb]; exact mem_pd_right lx ly x y (by omega)
  · rw [ha, hb]; exact mem_pd_right_up lx ly x y (by omega) (by omega)

/-- A position is never a possible direction from itself. -/
lemma not_mem_possible_directions_self (limit_board p : Int × Int) :
    p ∉ possible_directions limit_board p := by
  intro h
  have h1 := chebyshev_eq_one_of_mem limit_board p p h
  simp [chebyshev] at h1

/-- Stepping from a position toward itself does not move. -/
lemma distStep_self (p : Int × Int) : distStep p p = p := by
  simp [distStep]

/-- On equal positions the recursion of `get_distance_between` makes no
progress: it runs out of any amount of fuel (the Python original recurses
forever). -/
lemma get_distance_between_self (fuel : Nat) (limit_board p : Int × Int) :
    get_distance_between fuel limit_board p p = none := by
  induction fuel with
  | zero => rfl
  | succ n ih =>
    rw [get_distance_between, if_neg (not_mem_possible_directions_self limit_board p),
      distStep_self, ih]

/-- Within the board, adjacency in `possible_directions` is exactly
Chebyshev distance 1. -/
lemma mem_possible_directions_iff_chebyshev (limit_board p q : Int × Int)
    (hp : inBounds limit_board p) :
    p ∈ possible_directions limit_board q ↔ chebyshev p q = 1 := by
  constructor
  · exact chebyshev_eq_one_of_mem limit_board p q
  · intro h
    obtain ⟨lx, ly⟩ := limit_board
    obtain ⟨a, b⟩ := p
    obtain ⟨x, y⟩ := q
    exact mem_of_chebyshev_eq_one lx ly a b x y hp h

/-- The step toward the target stays within the board. -/
lemma distStep_inBounds (limit_board p q : Int × Int)
    (hp : inBounds limit_board p) (hq : inBounds limit_board q) :
    inBounds limit_board (distStep p q) := by
  obtain ⟨lx, ly⟩ := limit_board
  obtain ⟨a, b⟩ := p
  obtain ⟨x, y⟩ := q
  simp only [inBounds] at hp hq ⊢
  simp only [distStep]
  split_ifs <;> simp_all <;> omega

/-- For distinct positions, one step toward the target decreases the
Chebyshev distance by exactly one. -/
lemma chebyshev_distStep (p q : Int × Int) (h : p ≠ q) :
    chebyshev (distStep p q) q = chebyshev p q - 1 ∧ 1 ≤ chebyshev p q := by
  obtain ⟨a, b⟩ := p
  obtain ⟨x, y⟩ := q
  have h' : a ≠ x ∨ b ≠ y := by
    by_contra hc
    push_neg at hc
    exact h (by simp [hc.1, hc.2])
  simp only [distStep, chebyshev]
  split_ifs <;> simp_all <;> omega

/-- Chebyshev distance is symmetric. -/
lemma chebyshev_comm (p q : Int × Int) : chebyshev p q = chebyshev q p := by
  obtain ⟨a, b⟩ := p
  obtain ⟨x, y⟩ := q
  simp only [chebyshev]
  omega

/-- Chebyshev distance is zero exactly on equal positions. -/
lemma chebyshev_eq_zero_iff (p q : Int × Int) : chebyshev p q = 0 ↔ p = q := by
  obtain ⟨a, b⟩ := p
  obtain ⟨x, y⟩ := q
  simp only [chebyshev, Prod.mk.injEq]
  omega

/-- Core correctness of the recursion on distinct in-bounds positions:
with at least `chebyshev p q` fuel it returns exactly the Chebyshev
distance. -/
lemma get_distance_between_eq_chebyshev (fuel : Nat) :
    ∀ limit_board p q : Int × Int, inBounds limit_board p → inBounds limit_board q →
      p ≠ q → chebyshev p q ≤ fuel →
      get_distance_between fuel limit_board p q = some (chebyshev p q) := by
  induction fuel with
  | zero =>
    intro limit_board p q _ _ hne hle
    have h0 : chebyshev p q = 0 := Nat.le_zero.mp hle
    exact absurd ((chebyshev_eq_zero_iff p q).mp h0) hne
  | succ n ih =>
    intro limit_board p q hp hq hne hle
    by_cases hadj : p ∈ possible_directions limit_board q
    · have h1 : chebyshev p q = 1 :=
        (mem_possible_directions_iff_chebyshev limit_board p q hp).mp hadj
      rw [get_distance_between, if_pos hadj, h1]
    · have h1 : chebyshev p q ≠ 1 := fun h =>
        hadj ((mem_possible_directions_iff_chebyshev limit_board p q hp).mpr h)
      have h0 : chebyshev p q ≠ 0 := fun h => hne ((chebyshev_eq_zero_iff p q).mp h)
      have hstep := chebyshev_distStep p q hne
      have hstep_ne : distStep p q ≠ q := by
        intro hc
        have : chebyshev (distStep p q) q = 0 := by
          rw [hc]; exact (chebyshev_eq_zero_iff q q).mpr rfl
        omega
      have hrec := ih limit_board (distStep p q) q
        (distStep_inBounds limit_board p q hp hq) hq hstep_ne (by omega)
      rw [get_distance_between, if_neg hadj, hrec]
      obtain ⟨hs1, hs2⟩ := hstep
      show some (1 + chebyshev (distStep p q) q) = some (chebyshev p q)
      exact congrArg some (by omega)

/-- C1 (amended): for every pair of DISTINCT positions within the board
bounds, and any recursion budget of at least the Chebyshev distance,
`get_distance_between` returns exactly `max(|ax-bx|, |ay-by|)`; it is
symmetric, and adjacent cells have distance 1.  (The original claim also
required `distance(a,a) == 0`; on equal positions the source recursion
never terminates, see the counterexample.) -/
theorem get_distance_between_is_chebyshev (limit_board p q : Int × Int) (fuel : Nat)
    (hp : inBounds limit_board p) (hq : inBounds limit_board q) (hne : p ≠ q)
    (hfuel : chebyshev p q ≤ fuel) :
    get_distance_between fuel limit_board p q = some (chebyshev p q) ∧
    get_distance_between fuel limit_board q p = some (chebyshev p q) ∧
    (chebyshev p q = 1 → get_distance_between fuel limit_board p q = some 1) := by
  have h1 := get_distance_between_eq_chebyshev fuel limit_board p q hp hq hne hfuel
  have h2 := get_distance_between_eq_chebyshev fuel limit_board q p hq hp
    (fun h => hne h.symm) (by rw [chebyshev_comm]; exact hfuel)
  refine ⟨h1, ?_, fun hone => by rw [h1, hone]⟩
  rw [h2, chebyshev_comm]

/-- C1, witness: on a 3×3 board, the distance from (0,0) to (2,1) is
computed as 2 = max(2,1), in both argument orders. -/
theorem get_distance_between_is_chebyshev_witness :
    inBounds (3, 3) (0, 0) ∧ inBounds (3, 3) (2, 1) ∧
    ((0, 0) : Int × Int) ≠ (2, 1) ∧ chebyshev (0, 0) (2, 1) ≤ 2 ∧
    (get_distance_between 2 (3, 3) (0, 0) (2, 1) = some (chebyshev (0, 0) (2, 1)) ∧
     get_distance_between 2 (3, 3) (2, 1) (0, 0) = some (chebyshev (0, 0) (2, 1)) ∧
     (chebyshev (0, 0) (2, 1) = 1 → get_distance_between 2 (3, 3) (0, 0) (2, 1) = some 1)) :=
  ⟨by decide, by decide, by decide, by decide,
    get_distance_between_is_chebyshev (3, 3) (0, 0) (2, 1) 2
      (by decide) (by decide) (by decide) (by decide)⟩

/-- C1, counterexample to the claim as stated: at equal in-bounds
positions the recursion of `get_distance_between` never returns the
claimed value `0 = max(0, 0)` — it never returns at all, at any
recursion depth. -/
theorem get_distance_between_self_counterexample :
    ¬ ∃ fuel : Nat, get_distance_between fuel (3, 3) (1, 1) (1, 1) = some 0 := by
  rintro ⟨fuel, h⟩
  rw [get_distance_between_self] at h
  exact Option.noConfusion h

/-- C2: the claim says the recursion of `get_distance_between` reaches its
base case after finitely many steps for every in-bounds pair, including
equal positions.  The code does not: on the pair (2,2), (2,2) of a 5×5
board the recursive step leaves its arguments unchanged, so no recursion
depth ever reaches the base case (the Python original overflows the
stack). -/
theorem get_distance_between_equal_positions_no_result (fuel : Nat) :
    get_distance_between fuel (5, 5) (2, 2) (2, 2) = none :=
  get_distance_between_self fuel (5, 5) (2, 2)

/-! ## Tensor-of-scalars helpers

Torch/NumPy vectors are embedded as `List ℚ`; `listMax`/`listArgmax` are
`tensor.max(dim)[0]` / `tensor.max(dim)[1]` (and `np.argmax`) on one row,
with ties broken toward the first maximal index. -/

/-- Maximum entry of a row (`tensor.max(1)[0]`); 0 for an empty row
(torch would raise, the learning code never passes an empty row). -/
def listMax : List ℚ → ℚ
  | [] => 0
  | x :: xs => xs.foldl max x

/-- Index of the first maximal entry of a row (`np.argmax`,
`tensor.max(1)[1]`); 0 for an empty row. -/
def listArgmax : List ℚ → Nat
  | [] => 0
  | [_] => 0
  | x :: y :: rest =>
    let j := listArgmax (y :: rest)
    if (y :: rest).getD j 0 > x then j + 1 else 0

/-- `getD` of a `zipWith`, pointwise. -/
lemma getD_zipWith (f : ℚ → ℚ → ℚ) :
    ∀ (l₁ l₂ : List ℚ) (i : Nat), i < l₁.length → i < l₂.length →
      (List.zipWith f l₁ l₂).getD i 0 = f (l₁.getD i 0) (l₂.getD i 0) := by
  intro l₁
  induction l₁ with
  | nil => intro l₂ i h₁ _; exact absurd h₁ (by simp)
  | cons x xs ih =>
    intro l₂ i h₁ h₂
    cases l₂ with
    | nil => exact absurd h₂ (by simp)
    | cons y ys =>
      cases i with
      | zero => rfl
      | succ n =>
        simp only [List.zipWith_cons_cons, List.getD_cons_succ]
        exact ih ys n (by simpa using h₁) (by simpa using h₂)

/-! ## Target-network synchronization (C6, C9) -/

/-- Embedding of `soft_update(target, policy, tau)` — the loop body
`target_param.data.copy_(target_param.data * tau + param.data * (1. - tau))`
over the zipped parameter sequences, identical in `AgentMADQN` (lines
244-246) and `AgentMADDPG` (lines 488-490).  Networks' parameter tensors
are flattened to one list of scalars; the function returns the new target
parameters and touches nothing else. -/
def soft_update (tau : ℚ) (target policy : List ℚ) : List ℚ :=
  List.zipWith (fun target_param param => target_param * tau + param * (1 - tau)) target policy

/-- With equally many target and policy parameters, `soft_update` keeps
the parameter count. -/
lemma soft_update_length (tau : ℚ) (target policy : List ℚ)
    (hlen : target.length = policy.length) :
    (soft_update tau target policy).length = target.length := by
  simp [soft_update, hlen]

/-- Pointwise value of `soft_update`. -/
lemma soft_update_getD (tau : ℚ) (target policy : List ℚ)
    (hlen : target.length = policy.length) (i : Nat) (hi : i < target.length) :
    (soft_update tau target policy).getD i 0 =
      tau * target.getD i 0 + (1 - tau) * policy.getD i 0 := by
  rw [soft_update, getD_zipWith _ target policy i hi (hlen ▸ hi)]
  ring

/-- C6: after `soft_update(target, policy)` with interpolation factor
`tau`, every parameter of target equals `tau` times its previous value
plus `(1 - tau)` times the corresponding policy parameter, elementwise;
nothing else is produced (the result has exactly the target's
parameters). -/
theorem soft_update_interpolates (tau : ℚ) (target policy : List ℚ)
    (hlen : target.length = policy.length) :
    (soft_update tau target policy).length = target.length ∧
    ∀ i, i < target.length →
      (soft_update tau target policy).getD i 0 =
        tau * target.getD i 0 + (1 - tau) * policy.getD i 0 :=
  ⟨soft_update_length tau target policy hlen,
   fun i hi => soft_update_getD tau target policy hlen i hi⟩

/-- C6, witness: `soft_update` with `tau = 1/2` on parameters `[1, 3]`
and `[2, 5]`. -/
theorem soft_update_interpolates_witness :
    ([(1 : ℚ), 3]).length = ([(2 : ℚ), 5]).length ∧
    ((soft_update (1/2) [1, 3] [2, 5]).length = ([(1 : ℚ), 3]).length ∧
     ∀ i, i < ([(1 : ℚ), 3]).length →
       (soft_update (1/2) [1, 3] [2, 5]).getD i 0 =
         (1/2) * ([(1 : ℚ), 3]).getD i 0 + (1 - 1/2) * ([(2 : ℚ), 5]).getD i 0) :=
  ⟨rfl, soft_update_interpolates (1/2) [1, 3] [2, 5] rfl⟩

/-- The two target-update modes of the agent configuration
(`update_type ∈ {hard, soft}`, asserted at construction). -/
inductive UpdateType
  | hard
  | soft

/-- Embedding of `AgentDQN.hard_update`: `load_state_dict` copies the
policy parameters into the target verbatim. -/
def agentDQN_hard_update (_target policy : List ℚ) : Except String (List ℚ) :=
  Except.ok policy

/-- Embedding of `AgentDQN.soft_update`: the body is
`raise NotImplementedError`; no parameter is written before the raise. -/
def agentDQN_soft_update (_target _policy : List ℚ) : Except String (List ℚ) :=
  Except.error "NotImplementedError"

/-- Embedding of the `Agent.update` dispatch for an `AgentDQN`: `hard`
goes to `hard_update`, `soft` to `soft_update` (lines 55-59). -/
def agentDQN_update (update_type : UpdateType) (target policy : List ℚ) :
    Except String (List ℚ) :=
  match update_type with
  | UpdateType.hard => agentDQN_hard_update target policy
  | UpdateType.soft => agentDQN_soft_update target policy

/-- C9: for an `AgentDQN` with `update_type = soft`, `update` (and
`soft_update` itself) raises `NotImplementedError` and never produces an
updated target — in particular the target is never partially modified. -/
theorem agentDQN_update_soft_fails_fast (target policy : List ℚ) :
    agentDQN_update UpdateType.soft target policy = Except.error "NotImplementedError" ∧
    agentDQN_soft_update target policy = Except.error "NotImplementedError" ∧
    ∀ result, agentDQN_update UpdateType.soft target policy ≠ Except.ok result := by
  refine ⟨rfl, rfl, fun result h => ?_⟩
  exact Except.noConfusion h

/-! ## Action selection (C8, C10) -/

/-- Embedding of the epsilon-greedy threshold computed in `draw_action`
(`AgentDQN` lines 120-121, `AgentMADQN` 225-226, `AgentMADDPG` 346-347):
`EPS_END + (EPS_START - EPS_END) * exp(-1 * steps_done / EPS_DECAY)`,
where `steps_done` is the per-agent counter incremented on every call. -/
noncomputable def eps_threshold (EPS_START EPS_END EPS_DECAY : ℝ) (steps_done : ℕ) : ℝ :=
  EPS_END + (EPS_START - EPS_END) * Real.exp (-1 * steps_done / EPS_DECAY)

/-- C8: the epsilon schedule starts at `EPS_START`, tends to `EPS_END`,
and is strictly decreasing whenever `EPS_START > EPS_END` (for a positive
decay constant, as required for `exp(-t/EPS_DECAY)` to decay). -/
theorem eps_threshold_schedule (S E D : ℝ) (hD : 0 < D) :
    eps_threshold S E D 0 = S ∧
    Filter.Tendsto (eps_threshold S E D) Filter.atTop (nhds E) ∧
    (E < S → StrictAnti (eps_threshold S E D)) := by
  have key : ∀ t : ℕ, eps_threshold S E D t = E + (S - E) * Real.exp (-1 / D) ^ t := by
    intro t
    simp only [eps_threshold]
    rw [show (-1 * (t : ℝ) / D) = (t : ℝ) * (-1 / D) by ring, Real.exp_nat_mul]
  have hr0 : 0 < Real.exp (-1 / D) := Real.exp_pos _
  have hr1 : Real.exp (-1 / D) < 1 :=
    Real.exp_lt_one_iff.mpr (div_neg_of_neg_of_pos (by norm_num) hD)
  refine ⟨?_, ?_, ?_⟩
  · rw [key 0]
    simp
  · have hpow : Filter.Tendsto (fun t : ℕ => Real.exp (-1 / D) ^ t)
        Filter.atTop (nhds 0) :=
      tendsto_pow_atTop_nhds_zero_of_lt_one (le_of_lt hr0) hr1
    have h2 := (hpow.const_mul (S - E)).const_add E
    rw [mul_zero, add_zero] at h2
    have hfun : eps_threshold S E D = fun t : ℕ => E + (S - E) * Real.exp (-1 / D) ^ t :=
      funext key
    rw [hfun]
    exact h2
  · intro hSE a b hab
    rw [key a, key b]
    have hpow : Real.exp (-1 / D) ^ b < Real.exp (-1 / D) ^ a :=
      pow_lt_pow_right_of_lt_one₀ hr0 hr1 hab
    have := mul_lt_mul_of_pos_left hpow (sub_pos.mpr hSE)
    linarith

/-- C8, witness: the schedule with `EPS_START = 1`, `EPS_END = 0`,
`EPS_DECAY = 1`. -/
theorem eps_threshold_schedule_witness :
    (0 : ℝ) < 1 ∧
    (eps_threshold 1 0 1 0 = 1 ∧
     Filter.Tendsto (eps_threshold 1 0 1) Filter.atTop (nhds 0) ∧
     ((0 : ℝ) < 1 → StrictAnti (eps_threshold 1 0 1))) :=
  ⟨by norm_num, eps_threshold_schedule 1 0 1 (by norm_num)⟩

/-- Embedding of `AgentMADDPG.draw_action` (lines 345-363): the branch
structure in source order.  `policy_out` is the policy actor's row of
scores on the state, `gumbel_sample` the (opaque, random) hard
Gumbel-softmax sample of that row, `p` the uniform draw, and
`random_action` the uniformly drawn action used by the exploration
branch. -/
def maddpg_draw_action (no_exploration gumbel_flag : Bool)
    (policy_out gumbel_sample : List ℚ) (p eps : ℚ) (random_action : Nat) : Nat :=
  if no_exploration then listArgmax policy_out
  else if gumbel_flag then listArgmax gumbel_sample
  else if no_exploration || decide (p > eps) then listArgmax policy_out
  else random_action

/-- C10: with the Gumbel-softmax flag enabled and exploration not
disabled, the action is always the argmax of the Gumbel-softmax sample —
the result does not depend on the uniform draw, the epsilon threshold or
the uniform random action, so the epsilon-greedy branch is unreachable. -/
theorem maddpg_draw_action_gumbel_bypasses_epsilon
    (policy_out gumbel_sample : List ℚ) (p p' eps eps' : ℚ) (r r' : Nat) :
    maddpg_draw_action false true policy_out gumbel_sample p eps r =
      listArgmax gumbel_sample ∧
    maddpg_draw_action false true policy_out gumbel_sample p eps r =
      maddpg_draw_action false true policy_out gumbel_sample p' eps' r' :=
  ⟨rfl, rfl⟩

/-! ## DQN learning step (C3) -/

/-- Sum of a row of scalars. -/
def listSum (l : List ℚ) : ℚ := l.foldl (· + ·) 0

/-- `F.mse_loss` on two equal-shape column vectors: mean of the squared
differences. -/
def mse_loss (pred target : List ℚ) : ℚ :=
  listSum (List.zipWith (fun a b => (a - b) ^ 2) pred target) / (pred.length : ℚ)

/-- `policy_output.gather(1, action_batch)` (`AgentDQN.learn` lines
171-172): per batch row, the policy network's value at the taken
action. -/
def q_gather {σ : Type} (policy_net : σ → List ℚ) (state_batch : List σ)
    (action_batch : List Nat) : List ℚ :=
  List.zipWith (fun s a => (policy_net s).getD a 0) state_batch action_batch

/-- Double-Q branch of `AgentDQN.learn` (lines 174-176, then 181): the
action is the argmax of the policy network on the next state, the value
the target network's entry at that action, and the per-row regression
target is `reward + gamma * value`.  Both tensors here are column
vectors, so no broadcasting happens. -/
def ddqn_targets {σ : Type} (policy_net target_net : σ → List ℚ) (gamma : ℚ)
    (next_state_batch : List σ) (reward_batch : List ℚ) : List ℚ :=
  List.zipWith
    (fun ns r => r + gamma * (target_net ns).getD (listArgmax (policy_net ns)) 0)
    next_state_batch reward_batch

/-- Standard branch of `AgentDQN.learn` (lines 179, 181, 183) with
torch's actual broadcasting semantics: `reward_batch` has shape (B,1) and
`target_net(next).max(1)[0]` has shape (B,), so
`reward_batch + gamma * Qsa_prime_targets` broadcasts to the (B,B) matrix
with entry (i,j) equal to `reward_i + gamma * maxQ_j`, and `F.mse_loss`
then broadcasts the (B,1) prediction against it, returning the mean of
`(q_policy_i - reward_i - gamma * maxQ_j)^2` over all B times B pairs. -/
def dqn_std_loss {σ : Type} (policy_net target_net : σ → List ℚ) (gamma : ℚ)
    (state_batch next_state_batch : List σ) (action_batch : List Nat)
    (reward_batch : List ℚ) : ℚ :=
  let q_policy := q_gather policy_net state_batch action_batch
  let max_next := next_state_batch.map (fun ns => listMax (target_net ns))
  let rows := List.zipWith
    (fun qp r => max_next.map (fun m => (qp - (r + gamma * m)) ^ 2)) q_policy reward_batch
  listSum (rows.map listSum) / ((rows.length * max_next.length : Nat) : ℚ)

/-- The loss computed by `AgentDQN.learn` (lines 162-183) as a function
of the batch and the two networks, for both values of the
`config.learning.DDQN` flag. -/
def dqn_learn_loss {σ : Type} (ddqn : Bool) (policy_net target_net : σ → List ℚ)
    (gamma : ℚ) (state_batch next_state_batch : List σ) (action_batch : List Nat)
    (reward_batch : List ℚ) : ℚ :=
  if ddqn then
    mse_loss (q_gather policy_net state_batch action_batch)
      (ddqn_targets policy_net target_net gamma next_state_batch reward_batch)
  else
    dqn_std_loss policy_net target_net gamma state_batch next_state_batch
      action_batch reward_batch

/-- The loss claim C3 describes: mean squared error between the policy
value at the taken action and the PER-ROW regression target
`reward + gamma * Q_target`, where `Q_target` is the double-Q value in
double-Q mode and the per-row maximum of the target network otherwise. -/
def claimed_dqn_loss {σ : Type} (ddqn : Bool) (policy_net target_net : σ → List ℚ)
    (gamma : ℚ) (state_batch next_state_batch : List σ) (action_batch : List Nat)
    (reward_batch : List ℚ) : ℚ :=
  mse_loss (q_gather policy_net state_batch action_batch)
    (if ddqn then
      ddqn_targets policy_net target_net gamma next_state_batch reward_batch
    else
      List.zipWith (fun ns r => r + gamma * listMax (target_net ns))
        next_state_batch reward_batch)

/-- C3: on the batch `states [0,1]`, `next states [2,3]`,
`actions [0,1]`, `rewards [1,2]` with `gamma = 1/2` and the network
`n ↦ [n, 0]` for both policy and target, the double-Q mode matches the
claimed per-row loss, but the standard mode returns `63/8` — the mean
over all 2×2 broadcast pairs — while the claimed per-row mean squared
error is `65/8`.  The claim's target formula fails on the code in
standard mode. -/
theorem dqn_learn_loss_standard_mode_broadcasts :
    dqn_learn_loss true (fun n : Nat => [(n : ℚ), 0]) (fun n : Nat => [(n : ℚ), 0])
        (1/2) [0, 1] [2, 3] [0, 1] [1, 2] =
      claimed_dqn_loss true (fun n : Nat => [(n : ℚ), 0]) (fun n : Nat => [(n : ℚ), 0])
        (1/2) [0, 1] [2, 3] [0, 1] [1, 2] ∧
    dqn_learn_loss false (fun n : Nat => [(n : ℚ), 0]) (fun n : Nat => [(n : ℚ), 0])
        (1/2) [0, 1] [2, 3] [0, 1] [1, 2] = 63/8 ∧
    claimed_dqn_loss false (fun n : Nat => [(n : ℚ), 0]) (fun n : Nat => [(n : ℚ), 0])
        (1/2) [0, 1] [2, 3] [0, 1] [1, 2] = 65/8 ∧
    dqn_learn_loss false (fun n : Nat => [(n : ℚ), 0]) (fun n : Nat => [(n : ℚ), 0])
        (1/2) [0, 1] [2, 3] [0, 1] [1, 2] ≠
      claimed_dqn_loss false (fun n : Nat => [(n : ℚ), 0]) (fun n : Nat => [(n : ℚ), 0])
        (1/2) [0, 1] [2, 3] [0, 1] [1, 2] := by
  refine ⟨?_, ?_, ?_, ?_⟩ <;>
    norm_num [dqn_learn_loss, claimed_dqn_loss, dqn_std_loss, ddqn_targets, q_gather,
      mse_loss, listSum, listMax, listArgmax]

/-! ## MADQN learning step (C4) -/

/-- Effect of `AgentMADQN.learn` on the target networks: its final two
statements are `soft_update(target_actor, policy_actor)` and
`soft_update(target_critic, policy_critic)` (lines 284-285).  No other
statement of `learn` writes a target parameter: the forward/backward pass
only accumulates gradients, `clip_grad_norm_` rescales gradients, and
`policy_optimizer` holds only the policy networks' parameters (lines
209-210), so its `step()` leaves the targets alone. -/
def madqn_learn_target_params (tau : ℚ)
    (target_actor policy_actor target_critic policy_critic : List ℚ) :
    List ℚ × List ℚ :=
  (soft_update tau target_actor policy_actor, soft_update tau target_critic policy_critic)

/-- C4, counterexample: with `tau = 1/2`, target parameters `[1]` and
policy parameters `[0]`, a call to `learn` changes both target networks —
they are not left unchanged as claimed. -/
theorem madqn_learn_changes_targets :
    madqn_learn_target_params (1/2) [1] [0] [1] [0] ≠ (([1] : List ℚ), ([1] : List ℚ)) := by
  norm_num [madqn_learn_target_params, soft_update, Prod.ext_iff]

/-- C4 (amended): `AgentMADQN.learn` DOES invoke soft-update inside the
learning step: on every call, both the target actor and the target critic
are interpolated toward their policy networks with factor `tau`. -/
theorem madqn_learn_soft_updates_targets (tau : ℚ)
    (target_actor policy_actor target_critic policy_critic : List ℚ)
    (h₁ : target_actor.length = policy_actor.length)
    (h₂ : target_critic.length = policy_critic.length) :
    (∀ i, i < target_actor.length →
      (madqn_learn_target_params tau target_actor policy_actor
          target_critic policy_critic).1.getD i 0 =
        tau * target_actor.getD i 0 + (1 - tau) * policy_actor.getD i 0) ∧
    (∀ i, i < target_critic.length →
      (madqn_learn_target_params tau target_actor policy_actor
          target_critic policy_critic).2.getD i 0 =
        tau * target_critic.getD i 0 + (1 - tau) * policy_critic.getD i 0) :=
  ⟨fun i hi => soft_update_getD tau target_actor policy_actor h₁ i hi,
   fun i hi => soft_update_getD tau target_critic policy_critic h₂ i hi⟩

/-- C4, witness: the amended statement at `tau = 1/3`, target parameters
`[3]`/`[6]`, policy parameters `[0]`/`[3]`. -/
theorem madqn_learn_soft_updates_targets_witness :
    ([(3 : ℚ)]).length = ([(0 : ℚ)]).length ∧
    ([(6 : ℚ)]).length = ([(3 : ℚ)]).length ∧
    ((∀ i, i < ([(3 : ℚ)]).length →
      (madqn_learn_target_params (1/3) [3] [0] [6] [3]).1.getD i 0 =
        (1/3) * ([(3 : ℚ)]).getD i 0 + (1 - 1/3) * ([(0 : ℚ)]).getD i 0) ∧
     (∀ i, i < ([(6 : ℚ)]).length →
      (madqn_learn_target_params (1/3) [3] [0] [6] [3]).2.getD i 0 =
        (1/3) * ([(6 : ℚ)]).getD i 0 + (1 - 1/3) * ([(3 : ℚ)]).getD i 0)) :=
  ⟨rfl, rfl, madqn_learn_soft_updates_targets (1/3) [3] [0] [6] [3] rfl rfl⟩

/-! ## MADDPG critic update (C5) -/

/-- Modelled from the spec: one-hot encoding, "representation of a
discrete action as a vector with a single 1 at the chosen index" — the
helper `utils.to_onehot` imported by `sim/agents.py` is not among the
given sources. -/
def to_onehot (index width : Nat) : List ℚ :=
  (List.range width).map (fun j => if j = index then 1 else 0)

/-- Embedding of the target-action loop of `AgentMADDPG.learn_critic`
(lines 384-391): for EVERY agent `a`, `target_actors[a]` is evaluated on
`next_state_batch_idx = next_state_batch[:, idx]` — the learning agent's
own next-state slice — and the per-row argmax is one-hot encoded to
`action_dim`.  `next_state_batch` is batch × agents of per-agent
states. -/
def maddpg_critic_target_actions {σ : Type} [Inhabited σ]
    (target_actors : List (σ → List ℚ)) (next_state_batch : List (List σ))
    (idx action_dim : Nat) : List (List (List ℚ)) :=
  target_actors.map (fun actor =>
    next_state_batch.map (fun row =>
      to_onehot (listArgmax (actor (row.getD idx default))) action_dim))

/-- The computation claim C5 describes: agent `a`'s target actor is
evaluated on agent `a`'s OWN next-state slice. -/
def claimed_critic_target_actions {σ : Type} [Inhabited σ]
    (target_actors : List (σ → List ℚ)) (next_state_batch : List (List σ))
    (action_dim : Nat) : List (List (List ℚ)) :=
  (List.range target_actors.length).map (fun a =>
    next_state_batch.map (fun row =>
      to_onehot (listArgmax ((target_actors.getD a (fun _ => [])) (row.getD a default)))
        action_dim))

/-- C5, counterexample: two agents with the same actor `s ↦ [s,1,0,0,0]`,
one batch row whose two per-agent next states are 0 and 1, learning agent
`idx = 0`: the code one-hot encodes action 1 for agent 1 (evaluated on
slice 0), while the claimed computation gives agent 1 the one-hot of
action 0 (a tie at its own slice 1, broken toward index 0). -/
theorem maddpg_critic_target_actions_slice_counterexample :
    ((maddpg_critic_target_actions
        [fun s : Nat => [(s : ℚ), 1, 0, 0, 0], fun s : Nat => [(s : ℚ), 1, 0, 0, 0]]
        [[0, 1]] 0 5).getD 1 []).getD 0 [] ≠
      ((claimed_critic_target_actions
        [fun s : Nat => [(s : ℚ), 1, 0, 0, 0], fun s : Nat => [(s : ℚ), 1, 0, 0, 0]]
        [[0, 1]] 5).getD 1 []).getD 0 [] := by
  have hrange : List.range 5 = [0, 1, 2, 3, 4] := by decide
  have h₁ : listArgmax [((0 : Nat) : ℚ), 1, 0, 0, 0] = 1 := by norm_num [listArgmax]
  have h₂ : listArgmax [((1 : Nat) : ℚ), 1, 0, 0, 0] = 0 := by norm_num [listArgmax]
  simp only [maddpg_critic_target_actions, claimed_critic_target_actions,
    List.length_cons, List.length_nil, List.map_cons, List.map_nil,
    List.getD_cons_zero, List.getD_cons_succ, List.range_succ, List.range_zero,
    List.nil_append, List.cons_append, h₁, h₂, to_onehot, hrange]
  norm_num

/-- `getD` of a mapped list, pointwise. -/
lemma getD_map {α β : Type} (f : α → β) :
    ∀ (l : List α) (i : Nat), i < l.length → ∀ (d : α) (d' : β),
      (l.map f).getD i d' = f (l.getD i d) := by
  intro l
  induction l with
  | nil => intro i h; exact absurd h (by simp)
  | cons x xs ih =>
    intro i h d d'
    cases i with
    | zero => rfl
    | succ n =>
      simp only [List.map_cons, List.getD_cons_succ]
      exact ih n (by simpa using h) d d'

/-- C5 (amended): in `AgentMADDPG.learn_critic`, the target one-hot
action of EVERY agent `a` is the one-hot (of width `action_dim`) of the
argmax of `target_actors[a]` evaluated on the LEARNING agent's (`idx`)
next-state slice of each batch row — not on agent `a`'s own slice. -/
theorem maddpg_critic_target_actions_eval (σ : Type) [Inhabited σ]
    (target_actors : List (σ → List ℚ)) (next_state_batch : List (List σ))
    (idx action_dim a i : Nat)
    (ha : a < target_actors.length) (hi : i < next_state_batch.length) :
    ((maddpg_critic_target_actions target_actors next_state_batch idx action_dim).getD
        a []).getD i [] =
      to_onehot
        (listArgmax ((target_actors.getD a (fun _ => []))
          ((next_state_batch.getD i []).getD idx default)))
        action_dim := by
  rw [maddpg_critic_target_actions,
    getD_map _ target_actors a ha (fun _ => []) [],
    getD_map _ next_state_batch i hi [] []]

/-- C5, witness for the amended statement: the counterexample's input,
agent 1, batch row 0. -/
theorem maddpg_critic_target_actions_eval_witness :
    (1 : Nat) <
      ([fun s : Nat => [(s : ℚ), 1, 0, 0, 0],
        fun s : Nat => [(s : ℚ), 1, 0, 0, 0]]).length ∧
    (0 : Nat) < ([[(0 : Nat), 1]]).length ∧
    ((maddpg_critic_target_actions
        [fun s : Nat => [(s : ℚ), 1, 0, 0, 0], fun s : Nat => [(s : ℚ), 1, 0, 0, 0]]
        [[0, 1]] 0 5).getD 1 []).getD 0 [] =
      to_onehot
        (listArgmax
          ((([fun s : Nat => [(s : ℚ), 1, 0, 0, 0],
              fun s : Nat => [(s : ℚ), 1, 0, 0, 0]]).getD 1 (fun _ => []))
            ((([[(0 : Nat), 1]]).getD 0 []).getD 0 default)))
        5 :=
  ⟨by decide, by decide,
    maddpg_critic_target_actions_eval Nat
      [fun s : Nat => [(s : ℚ), 1, 0, 0, 0], fun s : Nat => [(s : ℚ), 1, 0, 0, 0]]
      [[0, 1]] 0 5 1 0 (by decide) (by decide)⟩

/-! ## Proximity query (C7) -/

/-- The agent attributes read by `distance_enemies_around`: its type
string, its position, the board limits and its field of view. -/
structure AgentInfo where
  type : String
  position : Int × Int
  limit_board : Int × Int
  view_radius : Nat

/-- The faction test of `distance_enemies_around` (lines 89-90): the pair
matches only when one type string is exactly `"target"` and the other
exactly `"officer"`. -/
def is_enemy_pair (agent other : AgentInfo) : Bool :=
  (agent.type == "target" && other.type == "officer") ||
  (agent.type == "officer" && other.type == "target")

/-- The loop of `distance_enemies_around` (lines 87-93), fuel-indexed
because it calls the possibly non-terminating `get_distance_between`:
for each matching other agent the distance is computed and appended when
it does not exceed `max_distance`. -/
def enemies_loop (fuel : Nat) (agent : AgentInfo) (max_distance : Nat) :
    List AgentInfo → Option (List Nat)
  | [] => some []
  | other :: rest =>
    if is_enemy_pair agent other then
      match get_distance_between fuel agent.limit_board agent.position other.position with
      | none => none
      | some d =>
        match enemies_loop fuel agent max_distance rest with
        | none => none
        | some l => some (if d ≤ max_distance then d :: l else l)
    else enemies_loop fuel agent max_distance rest

/-- Embedding of `utils.distance_enemies_around(agent, agents,
max_distance)`: `max_distance` defaults to `agent.view_radius`
(line 86). -/
def distance_enemies_around (fuel : Nat) (agent : AgentInfo)
    (agents : List AgentInfo) (max_distance : Option Nat) : Option (List Nat) :=
  enemies_loop fuel agent (max_distance.getD agent.view_radius) agents

/-- The faction relation of claim C7: predator/officer versus
prey/target. -/
def opposing_faction (t₁ t₂ : String) : Prop :=
  ((t₁ = "predator" ∨ t₁ = "officer") ∧ (t₂ = "prey" ∨ t₂ = "target")) ∨
  ((t₁ = "prey" ∨ t₁ = "target") ∧ (t₂ = "predator" ∨ t₂ = "officer"))

instance (t₁ t₂ : String) : Decidable (opposing_faction t₁ t₂) := by
  unfold opposing_faction; infer_instance

/-- The list claim C7 describes: distances (in closed form) from the
agent to every other agent of the opposing faction within
`max_distance` (default `view_radius`), in input order. -/
def claimed_distance_to_opponents (agent : AgentInfo) (agents : List AgentInfo)
    (max_distance : Option Nat) : List Nat :=
  (agents.filter (fun o =>
      decide (opposing_faction agent.type o.type) &&
      decide (chebyshev agent.position o.position ≤
        max_distance.getD agent.view_radius))).map
    (fun o => chebyshev agent.position o.position)

/-- C7, counterexample: a `"predator"` at (0,0) and a `"prey"` at (1,1)
on a 5×5 board are of opposing factions per the claim (distance 1, within
the view radius 3), yet the code returns the empty list: its faction test
only matches the literal strings `"officer"`/`"target"`. -/
theorem distance_enemies_around_faction_counterexample :
    distance_enemies_around 8
        ⟨"predator", (0, 0), (5, 5), 3⟩ [⟨"prey", (1, 1), (5, 5), 3⟩] none = some [] ∧
    claimed_distance_to_opponents
        ⟨"predator", (0, 0), (5, 5), 3⟩ [⟨"prey", (1, 1), (5, 5), 3⟩] none = [1] ∧
    distance_enemies_around 8
        ⟨"predator", (0, 0), (5, 5), 3⟩ [⟨"prey", (1, 1), (5, 5), 3⟩] none ≠
      some (claimed_distance_to_opponents
        ⟨"predator", (0, 0), (5, 5), 3⟩ [⟨"prey", (1, 1), (5, 5), 3⟩] none) := by
  refine ⟨by decide, by decide, by decide⟩

/-- C7 (amended): `distance_enemies_around` returns exactly the distances
from the agent to each other agent whose type pairs with the agent's as
the literal strings officer/target (in either role) and whose distance is
at most `max_distance` (defaulting to `agent.view_radius`), in the input
order — provided every matching pair is in bounds, at distinct positions,
and within the recursion budget, in which case each distance is the
Chebyshev distance. -/
theorem distance_enemies_around_eq (fuel : Nat) (agent : AgentInfo)
    (agents : List AgentInfo) (max_distance : Option Nat)
    (h : ∀ o ∈ agents, is_enemy_pair agent o = true →
      inBounds agent.limit_board agent.position ∧
      inBounds agent.limit_board o.position ∧
      agent.position ≠ o.position ∧
      chebyshev agent.position o.position ≤ fuel) :
    distance_enemies_around fuel agent agents max_distance =
      some ((agents.filter (fun o =>
          is_enemy_pair agent o &&
          decide (chebyshev agent.position o.position ≤
            max_distance.getD agent.view_radius))).map
        (fun o => chebyshev agent.position o.position)) := by
  rw [distance_enemies_around]
  induction agents with
  | nil => rfl
  | cons o rest ih =>
    have hrest : ∀ x ∈ rest, is_enemy_pair agent x = true →
        inBounds agent.limit_board agent.position ∧
        inBounds agent.limit_board x.position ∧
        agent.position ≠ x.position ∧
        chebyshev agent.position x.position ≤ fuel :=
      fun x hx => h x (List.mem_cons_of_mem o hx)
    by_cases hpair : is_enemy_pair agent o = true
    · obtain ⟨hb₁, hb₂, hne, hfuel⟩ := h o (List.mem_cons_self o rest) hpair
      have hdist := get_distance_between_eq_chebyshev fuel agent.limit_board
        agent.position o.position hb₁ hb₂ hne hfuel
      rw [enemies_loop, if_pos hpair, hdist, ih hrest, List.filter_cons]
      by_cases hle : chebyshev agent.position o.position ≤
          max_distance.getD agent.view_radius
      · simp [hpair, hle]
      · simp [hpair, hle]
    · rw [enemies_loop, if_neg hpair, ih hrest, List.filter_cons]
      simp [hpair]

/-- C7, witness: an officer at (0,0) seeing a target at (2,1) (distance
2 ≤ view radius 3) and a prey at (1,0) (ignored by the code's faction
test). -/
theorem distance_enemies_around_eq_witness :
    (∀ o ∈ [(⟨"target", (2, 1), (5, 5), 3⟩ : AgentInfo), ⟨"prey", (1, 0), (5, 5), 3⟩],
      is_enemy_pair ⟨"officer", (0, 0), (5, 5), 3⟩ o = true →
      inBounds (5, 5) (0, 0) ∧ inBounds (5, 5) o.position ∧
      ((0, 0) : Int × Int) ≠ o.position ∧ chebyshev (0, 0) o.position ≤ 4) ∧
    distance_enemies_around 4 ⟨"officer", (0, 0), (5, 5), 3⟩
        [⟨"target", (2, 1), (5, 5), 3⟩, ⟨"prey", (1, 0), (5, 5), 3⟩] none =
      some (([(⟨"target", (2, 1), (5, 5), 3⟩ : AgentInfo),
              ⟨"prey", (1, 0), (5, 5), 3⟩].filter (fun o =>
          is_enemy_pair ⟨"officer", (0, 0), (5, 5), 3⟩ o &&
          decide (chebyshev (0, 0) o.position ≤ (none : Option Nat).getD 3))).map
        (fun o => chebyshev (0, 0) o.position)) :=
  ⟨by decide,
    distance_enemies_around_eq 4 ⟨"officer", (0, 0), (5, 5), 3⟩
      [⟨"target", (2, 1), (5, 5), 3⟩, ⟨"prey", (1, 0), (5, 5), 3⟩] none (by decide)⟩

end Patrol
